import Mathlib

/-!
Shallow embedding of the marker-chart canvas component
(src/components/marker-chart/Canvas.js): the data model, the coordinate
mapping between time, unit-interval and pixel space, the drawing
decisions, the hit-testing algorithm and the incremental redraw
controller, together with theorems checking the specification's claims.

Numbers are modelled as rationals; JS Math.round and Math.floor are
modelled exactly on rationals.  External collaborators (text
measurement, the photon color constants) are modelled as parameters or
opaque string constants.  JS exceptions are modelled with Except.
-/

namespace MarkerChart

/-- Constant TEXT_OFFSET_TOP = 11 from the source. -/
def TEXT_OFFSET_TOP : ℚ := 11

/-- Constant TEXT_OFFSET_START = 3 from the source. -/
def TEXT_OFFSET_START : ℚ := 3

/-- Constant MARKER_DOT_RADIUS = 0.25 from the source. -/
def MARKER_DOT_RADIUS : ℚ := 1 / 4

/-- Constant LABEL_PADDING = 5 from the source. -/
def LABEL_PADDING : ℚ := 5

/-- Constant MARKER_BORDER_COLOR from the source. -/
def MARKER_BORDER_COLOR : String := "#2c77d1"

/-- External photon-colors constant (opaque here). -/
def BLUE_60 : String := "BLUE_60"

/-- External photon-colors constant (opaque here). -/
def BLUE_80 : String := "BLUE_80"

/-- The non-highlighted marker fill color literal from the source. -/
def MARKER_FILL_COLOR : String := "#8ac4ff"

/-- JS Math.round: round half toward positive infinity. -/
def jsRound (q : ℚ) : ℤ := Int.floor (q + 1 / 2)

/-- A timing row: parallel arrays start/end/label/index plus a row
category name.  The source field named end is called stop here because
end is a Lean keyword. -/
structure MarkerTiming where
  start : List ℚ
  stop : List ℚ
  label : List String
  index : List ℕ
  name : String
  deriving DecidableEq

/-- The length field of a timing row; the parallel arrays all have this
length (data-model invariant). -/
def MarkerTiming.length (mt : MarkerTiming) : ℕ := mt.start.length

/-- An entry of MarkerTimingAndBuckets: either a timing row or a bucket
separator row, which in the source is a plain string. -/
inductive MarkerRow where
  | timing (mt : MarkerTiming)
  | bucket (bucketName : String)
  deriving DecidableEq

/-- The JS property access row.name: a timing row has a name; a plain
string (bucket) has no name property, reading it yields undefined. -/
def MarkerRow.rowName : MarkerRow → Option String
  | .timing mt => some mt.name
  | .bucket _ => none

/-- JS array indexing with a possibly negative index: arr[i] is
undefined outside the array bounds (in particular arr[-1]). -/
def getRow (rows : List MarkerRow) (i : ℤ) : Option MarkerRow :=
  if 0 ≤ i then rows.get? i.toNat else none

/-- The viewport slice of the props consumed by the component. -/
structure Viewport where
  viewportLeft : ℚ
  viewportRight : ℚ
  viewportTop : ℚ
  viewportBottom : ℚ
  containerWidth : ℚ
  containerHeight : ℚ
  deriving DecidableEq

/-- The props consumed by MarkerChartCanvasImpl.  The flag isActiveTab
models timelineTrackOrganization.type === the active-tab mode; dpr
models window.devicePixelRatio. -/
structure Props where
  rangeStart : ℚ
  rangeEnd : ℚ
  markerTimingAndBuckets : List MarkerRow
  rowHeight : ℚ
  marginLeft : ℚ
  marginRight : ℚ
  selectedMarkerIndex : Option ℕ
  rightClickedMarkerIndex : Option ℕ
  isActiveTab : Bool
  viewport : Viewport
  dpr : ℚ
  deriving DecidableEq

/-- The external text-measurement collaborator.  getFittedText returns
the empty string (falsy in JS) when nothing fits. -/
structure TextMeasurement where
  minWidth : ℚ
  getFittedText : String → ℚ → String
  getTextWidth : String → ℚ

/-- containerWidth - marginLeft - marginRight, as in the source. -/
def markerContainerWidth (p : Props) : ℚ :=
  p.viewport.containerWidth - p.marginLeft - p.marginRight

/-- rangeEnd - rangeStart. -/
def rangeLength (p : Props) : ℚ := p.rangeEnd - p.rangeStart

/-- viewportRight - viewportLeft. -/
def viewportLength (p : Props) : ℚ :=
  p.viewport.viewportRight - p.viewport.viewportLeft

/-- The pixel x of a unit-interval start time, exactly as computed in
drawMarkers: ((startTime - viewportLeft) * markerContainerWidth) /
viewportLength + marginLeft. -/
def markerPixelX (p : Props) (startTime : ℚ) : ℚ :=
  (startTime - p.viewport.viewportLeft) * markerContainerWidth p / viewportLength p
    + p.marginLeft

/-- The pixel width of a marker, exactly as computed in drawMarkers. -/
def markerPixelW (p : Props) (startTime endTime : ℚ) : ℚ :=
  (endTime - startTime) * markerContainerWidth p / viewportLength p

/-- Device-pixel alignment from drawMarkers:
Math.round(x * devicePixelRatio) / devicePixelRatio. -/
def roundToDevicePixels (p : Props) (x : ℚ) : ℚ :=
  (jsRound (x * p.dpr) : ℚ) / p.dpr

/-- The pixel-to-unit-interval mapping from hitTest:
viewportLeft + viewportLength * ((x - marginLeft) / markerContainerWidth). -/
def xInUnitIntervalAt (p : Props) (x : ℚ) : ℚ :=
  p.viewport.viewportLeft + viewportLength p * ((x - p.marginLeft) / markerContainerWidth p)

/-- The pixel-to-time mapping from hitTest. -/
def xInTimeAt (p : Props) (x : ℚ) : ℚ :=
  p.rangeStart + xInUnitIntervalAt p x * rangeLength p

/-- dotRadius = MARKER_DOT_RADIUS * rowHeight, from hitTest. -/
def dotRadius (p : Props) : ℚ := MARKER_DOT_RADIUS * p.rowHeight

/-- dotRadiusInTime = (dotRadius / markerContainerWidth) * viewportLength
* rangeLength, from hitTest. -/
def dotRadiusInTime (p : Props) : ℚ :=
  dotRadius p / markerContainerWidth p * viewportLength p * rangeLength p

/-- The specification's coordinate-mapper contract, written from the
spec wording for the refinement comparison: x = marginLeft +
(u - viewport.left) * (containerWidth - marginLeft - marginRight) /
(viewport.right - viewport.left). -/
def unitIntervalToPixel (u vLeft vRight cw ml mr : ℚ) : ℚ :=
  ml + (u - vLeft) * (cw - ml - mr) / (vRight - vLeft)

/-- Modelled from the spec: bisectionRight comes from
firefox-profiler/utils/bisect, which is not under src/.  On a row with
ascending start times it returns the insertion point of x: the first
index whose element is strictly greater than x. -/
def bisectionRight (a : List ℚ) (x : ℚ) : ℕ :=
  (a.takeWhile (fun s => decide (s ≤ x))).length

/-- The empty string (used where the source stores or compares falsy text). -/
def noText : String := ""

/-- The hit-test acceptance predicate isMarkerTimingInDotRadius from the
source: start[index] < xInTime + dotRadiusInTime and end[index] >
xInTime - dotRadiusInTime. -/
def isMarkerTimingInDotRadius (mt : MarkerTiming) (xInTime dotRadiusInTime : ℚ)
    (i : ℕ) : Prop :=
  mt.start.getD i 0 < xInTime + dotRadiusInTime ∧
    mt.stop.getD i 0 > xInTime - dotRadiusInTime

instance (mt : MarkerTiming) (xInTime dotRadiusInTime : ℚ) (i : ℕ) :
    Decidable (isMarkerTimingInDotRadius mt xInTime dotRadiusInTime i) := by
  unfold isMarkerTimingInDotRadius; infer_instance

/-- The marker-selection part of hitTest (source lines 684-729): bisect
the ordered start array, tie-break between the two candidate markers by
signed distance, then accept only within the dot radius. -/
def hitTestMarkerIndex (mt : MarkerTiming) (xInTime dotRadiusInTime : ℚ) :
    Option ℕ :=
  let nextStartIndex := bisectionRight mt.start xInTime
  if 0 < nextStartIndex ∧ nextStartIndex < mt.length then
    let prevStartIndex := nextStartIndex - 1
    let distanceToNext := mt.start.getD nextStartIndex 0 - xInTime
    let distanceToPrev := xInTime - mt.stop.getD prevStartIndex 0
    let closest := if distanceToPrev < distanceToNext then prevStartIndex else nextStartIndex
    if isMarkerTimingInDotRadius mt xInTime dotRadiusInTime closest then
      some (mt.index.getD closest 0)
    else none
  else if nextStartIndex = 0 then
    if isMarkerTimingInDotRadius mt xInTime dotRadiusInTime nextStartIndex then
      some (mt.index.getD nextStartIndex 0)
    else none
  else
    if isMarkerTimingInDotRadius mt xInTime dotRadiusInTime (nextStartIndex - 1) then
      some (mt.index.getD (nextStartIndex - 1) 0)
    else none

/-- JS exceptions thrown by this component: the explicit Error thrown on
a scale-assumption violation in drawCanvas, and the implicit TypeError
raised by reading a property of undefined. -/
inductive JsError where
  | typeError (msg : String)
  | error (msg : String)
  deriving DecidableEq

/-- The message of the TypeError raised by reading .name of
markerTimingAndBuckets[-1] (undefined) in hitTest. -/
def undefinedNameMsg : String := "cannot read property name of undefined"

/-- The hit-test result type HoveredMarkerChartItems. -/
structure HoveredMarkerChartItems where
  markerIndex : Option ℕ
  rowIndexOfLabel : Option ℤ
  deriving DecidableEq

/-- The full hitTest method (source lines 633-765).  The second
argument models the lazily initialized _textMeasurement instance field
(null until the first draw).  In active-tab mode the source reads
markerTimingAndBuckets[rowIndex - 1].name, which throws a TypeError
when that entry is undefined (rowIndex = 0). -/
def hitTest (p : Props) (textMeasurement : Option TextMeasurement) (x y : ℚ) :
    Except JsError (Option HoveredMarkerChartItems) :=
  if x < p.marginLeft - dotRadius p then .ok none
  else
    let xInTime := xInTimeAt p x
    let rowIndex : ℤ := Int.floor ((y + p.viewport.viewportTop) / p.rowHeight)
    match getRow p.markerTimingAndBuckets rowIndex with
    | some (.timing mt) =>
      if mt.length = 0 then .ok none
      else
        let markerIndex := hitTestMarkerIndex mt xInTime (dotRadiusInTime p)
        let labelStep : Except JsError (Option ℤ) :=
          if p.isActiveTab then
            match getRow p.markerTimingAndBuckets (rowIndex - 1) with
            | none => .error (.typeError undefinedNameMsg)
            | some prevMarkerTiming =>
              .ok (match textMeasurement with
                | some tmv =>
                  if prevMarkerTiming.rowName ≠ some mt.name ∧
                      x < tmv.getTextWidth mt.name + LABEL_PADDING * 2 then
                    some rowIndex
                  else none
                | none => none)
          else .ok none
        match labelStep with
        | .error e => .error e
        | .ok rowIndexOfLabel =>
          if markerIndex = none ∧ rowIndexOfLabel = none then .ok none
          else .ok (some ⟨markerIndex, rowIndexOfLabel⟩)
    | _ => .ok none

/-- One raster-sink operation issued while drawing a single marker. -/
inductive DrawOp where
  | fillRect (x y w h : ℚ) (style : String)
  | borderedRect (x y w h : ℚ) (fillStyle strokeStyle : String)
  | fillText (text : String) (x y : ℚ) (style : String)
  | diamond (leftX leftY topX topY rightX rightY bottomX bottomY : ℚ)
      (fillStyle strokeStyle : String)
  deriving DecidableEq

/-- The width available for the text label inside a bigger interval
marker, from drawOneIntervalMarker: the visible width (clipped at the
left margin) minus 2 * TEXT_OFFSET_START. -/
def textAvailableWidth (marginLeft x w : ℚ) : ℚ :=
  (if x < marginLeft then w - marginLeft + x else w) - 2 * TEXT_OFFSET_START

/-- The text x position from drawOneIntervalMarker, constrained to the
leftmost area. -/
def textStartX (marginLeft x : ℚ) : ℚ :=
  if x < marginLeft then marginLeft + TEXT_OFFSET_START else x + TEXT_OFFSET_START

/-- drawOneIntervalMarker from the source: a small marker (w <= 2) is a
plain filled rect of width at least 1; a bigger marker is a bordered
rectangle followed by a fitted text label when the available width
exceeds the text-measurement minimum and some text fits. -/
def drawOneIntervalMarker (marginLeft : ℚ) (tm : TextMeasurement)
    (x y w h : ℚ) (text : String) (isHighlighted : Bool) : List DrawOp :=
  if w ≤ 2 then
    [DrawOp.fillRect x (y + 1) (max w 1) (h - 2)
      (if isHighlighted then BLUE_80 else MARKER_BORDER_COLOR)]
  else
    let w2 := textAvailableWidth marginLeft x w
    DrawOp.borderedRect (x + 1 / 2) (y + 1 + 1 / 2) (w - 1) (h - 2 - 1)
        (if isHighlighted then BLUE_60 else MARKER_FILL_COLOR)
        (if isHighlighted then BLUE_80 else MARKER_BORDER_COLOR)
      :: (if w2 > tm.minWidth then
            (let fittedText := tm.getFittedText text w2
             if fittedText ≠ "" then
               [DrawOp.fillText fittedText (textStartX marginLeft x) (y + TEXT_OFFSET_TOP)
                 (if isHighlighted then "white" else "black")]
             else [])
          else [])

/-- drawOneInstantMarker from the source: a diamond path through
(x - h/4, y + h/2), (x, y + 1.5), (x + h/4, y + h/2), (x, y + h - 1.5). -/
def drawOneInstantMarker (x y h : ℚ) (isHighlighted : Bool) : List DrawOp :=
  [DrawOp.diamond (x - h / 4) (y + h / 2) x (y + 3 / 2) (x + h / 4) (y + h / 2)
    x (y + h - 3 / 2)
    (if isHighlighted then BLUE_60 else MARKER_FILL_COLOR)
    (if isHighlighted then BLUE_80 else MARKER_BORDER_COLOR)]

/-- drawOneMarker from the source: dispatch on isInstantMarker. -/
def drawOneMarker (marginLeft : ℚ) (tm : TextMeasurement)
    (x y w h : ℚ) (isInstantMarker : Bool) (text : String)
    (isHighlighted : Bool) : List DrawOp :=
  if isInstantMarker then drawOneInstantMarker x y h isHighlighted
  else drawOneIntervalMarker marginLeft tm x y w h text isHighlighted

/-- One marker of a timing row, read off the parallel arrays at a common
index (the arrays have equal length by the data-model invariant). -/
structure TimedMarker where
  start : ℚ
  stop : ℚ
  label : String
  index : ℕ
  deriving DecidableEq

/-- The list of markers of a timing row, in index order. -/
def MarkerTiming.markers (mt : MarkerTiming) : List TimedMarker :=
  (List.range mt.length).map (fun i =>
    ⟨mt.start.getD i 0, mt.stop.getD i 0, mt.label.getD i noText, mt.index.getD i 0⟩)

/-- The per-frame geometry computed for one marker in drawMarkers
(MarkerDrawingInformation plus the highlight flag). -/
structure MarkerGeometry where
  x : ℚ
  y : ℚ
  w : ℚ
  h : ℚ
  isInstantMarker : Bool
  text : String
  isHighlighted : Bool
  deriving DecidableEq

/-- The highlight decision from drawMarkers: right-clicked, hovered or
selected, by value equality of the identifier. -/
def isHighlightedMarker (p : Props) (hoveredItem : Option ℕ) (markerIndex : ℕ) : Bool :=
  decide (p.rightClickedMarkerIndex = some markerIndex ∨
    hoveredItem = some markerIndex ∨ p.selectedMarkerIndex = some markerIndex)

/-- The geometry computation of drawMarkers for one marker: unit-interval
times, pixel position and size, device-pixel rounding of x and w. -/
def computeGeometry (p : Props) (hoveredItem : Option ℕ) (rowIndex : ℤ)
    (m : TimedMarker) : MarkerGeometry :=
  let startTime := (m.start - p.rangeStart) / rangeLength p
  let endTime := (m.stop - p.rangeStart) / rangeLength p
  { x := roundToDevicePixels p (markerPixelX p startTime)
    y := (rowIndex : ℚ) * p.rowHeight - p.viewport.viewportTop
    w := roundToDevicePixels p (markerPixelW p startTime endTime)
    h := p.rowHeight - 1
    isInstantMarker := decide (m.start = m.stop)
    text := m.label
    isHighlighted := isHighlightedMarker p hoveredItem m.index }

/-- The in-bounds test of drawMarkers: endTimestamp >= timeAtViewportLeft
and startTimestamp < timeAtViewportRightPlusMargin. -/
def inViewBounds (p : Props) (m : TimedMarker) : Prop :=
  m.stop ≥ p.rangeStart + rangeLength p * p.viewport.viewportLeft ∧
    m.start < p.rangeStart + rangeLength p * p.viewport.viewportRight +
      p.marginRight * (viewportLength p * rangeLength p / markerContainerWidth p)

instance (p : Props) (m : TimedMarker) : Decidable (inViewBounds p m) := by
  unfold inViewBounds; infer_instance

/-- The inner loop of drawMarkers for one timing row: skip out-of-bounds
markers, push highlighted markers onto the second-pass list, draw a
non-highlighted marker when w > 1 or its rounded x differs from the
previously drawn marker's x (tracked in previousMarkerDrawnAtX). -/
def drawMarkersRow (p : Props) (tm : TextMeasurement) (hoveredItem : Option ℕ)
    (rowIndex : ℤ) :
    List TimedMarker → Option ℚ → List DrawOp × List MarkerGeometry
  | [], _ => ([], [])
  | m :: rest, previousMarkerDrawnAtX =>
    if inViewBounds p m then
      let g := computeGeometry p hoveredItem rowIndex m
      if g.isHighlighted then
        let r := drawMarkersRow p tm hoveredItem rowIndex rest previousMarkerDrawnAtX
        (r.1, g :: r.2)
      else if g.w > 1 ∨ previousMarkerDrawnAtX ≠ some g.x then
        let r := drawMarkersRow p tm hoveredItem rowIndex rest (some g.x)
        (drawOneMarker p.marginLeft tm g.x g.y g.w g.h g.isInstantMarker g.text false
          ++ r.1, r.2)
      else
        drawMarkersRow p tm hoveredItem rowIndex rest previousMarkerDrawnAtX
    else
      drawMarkersRow p tm hoveredItem rowIndex rest previousMarkerDrawnAtX

/-- The row loop of drawMarkers over rowIndex in [startRow, endRow),
skipping missing rows and buckets; fuel is the number of rows left. -/
def drawMarkersFromRow (p : Props) (tm : TextMeasurement) (hoveredItem : Option ℕ) :
    ℤ → ℕ → List DrawOp × List MarkerGeometry
  | _, 0 => ([], [])
  | rowIndex, fuel + 1 =>
    let here :=
      match getRow p.markerTimingAndBuckets rowIndex with
      | some (.timing mt) => drawMarkersRow p tm hoveredItem rowIndex mt.markers none
      | _ => ([], [])
    let rest := drawMarkersFromRow p tm hoveredItem (rowIndex + 1) fuel
    (here.1 ++ rest.1, here.2 ++ rest.2)

/-- drawMarkers from the source: draw the visible rows, then draw the
highlighted markers in a second pass so they are never occluded.  (The
clip region confining drawing to the marker area is not modelled as an
op; it scopes the whole call.) -/
def drawMarkers (p : Props) (tm : TextMeasurement) (hoveredItem : Option ℕ)
    (startRow endRow : ℤ) : List DrawOp :=
  let r := drawMarkersFromRow p tm hoveredItem startRow (endRow - startRow).toNat
  r.1 ++ r.2.flatMap (fun g =>
    drawOneMarker p.marginLeft tm g.x g.y g.w g.h g.isInstantMarker g.text true)

/-- The Map from marker identifier to row number built by
_getMarkerIndexToTimingRow, modelled as an association list. -/
def RowIndexMap := List (ℕ × ℕ)

instance : DecidableEq RowIndexMap := by unfold RowIndexMap; infer_instance

/-- JS Map.get: the value of the key, or undefined. -/
def mapGet (m : RowIndexMap) (k : ℕ) : Option ℕ :=
  (m.find? (fun e => decide (e.1 = k))).map (fun e => e.2)

/-- JS Map.set: a later set of the same key wins; modelled by shadowing
with respect to mapGet. -/
def mapSet (m : RowIndexMap) (k v : ℕ) : RowIndexMap := (k, v) :: m

/-- The row loop body of _getMarkerIndexToTimingRow: a timing row maps
each of its marker identifiers to the row number; a bucket (string)
row is skipped. -/
def buildRowIndexAux : List MarkerRow → ℕ → RowIndexMap → RowIndexMap
  | [], _, m => m
  | .bucket _ :: rest, rowIndex, m => buildRowIndexAux rest (rowIndex + 1) m
  | .timing mt :: rest, rowIndex, m =>
    buildRowIndexAux rest (rowIndex + 1)
      (mt.index.foldl (fun acc markerIndex => mapSet acc markerIndex rowIndex) m)

/-- The body of the memoized _getMarkerIndexToTimingRow. -/
def buildRowIndex (rows : List MarkerRow) : RowIndexMap :=
  buildRowIndexAux rows 0 []

/-- A MarkerTimingAndBuckets value together with its object identity,
which is what the memoize-immutable WeakMap cache keys on. -/
structure RowSequence where
  ident : ℕ
  rows : List MarkerRow

/-- Modelled from the spec: the memoize-immutable WeakMap cache of
_getMarkerIndexToTimingRow (the memoize library is not part of this
repository).  Entries associate a RowSequence identity with the build
stamp and the built map; the stamp models the object identity of the
returned map (two results are the same map instance iff their stamps
are equal). -/
structure MemoState where
  entries : List (ℕ × ℕ × RowIndexMap)
  nextStamp : ℕ

/-- The empty cache. -/
def MemoState.empty : MemoState := ⟨[], 0⟩

/-- The memoized _getMarkerIndexToTimingRow: return the cached map for
an already-seen RowSequence identity, otherwise build a fresh map (with
a fresh stamp) and cache it. -/
def getMarkerIndexToTimingRow (st : MemoState) (rs : RowSequence) :
    (ℕ × RowIndexMap) × MemoState :=
  match st.entries.find? (fun e => decide (e.1 = rs.ident)) with
  | some e => ((e.2.1, e.2.2), st)
  | none =>
    let m := buildRowIndex rs.rows
    ((st.nextStamp, m), ⟨(rs.ident, st.nextStamp, m) :: st.entries, st.nextStamp + 1⟩)

/-- One high-level drawing step issued by drawCanvas: a full-surface
clear, or a row-scoped clear/highlight/marker-draw/label-draw. -/
inductive CanvasOp where
  | fullClear (w h : ℚ)
  | clearRow (row : ℤ)
  | highlightRow (row : ℤ)
  | drawMarkersCall (hoveredItem : Option ℕ) (startRow endRow : ℤ)
  | drawSeparatorsAndLabelsCall (startRow endRow : ℤ)
  deriving DecidableEq

/-- Whether a drawCanvas op is the full-surface clear. -/
def CanvasOp.isFullClear : CanvasOp → Bool
  | .fullClear _ _ => true
  | _ => false

/-- The rows a drawCanvas op touches. -/
def CanvasOp.touchesRow : CanvasOp → ℤ → Prop
  | .fullClear _ _, _ => True
  | .clearRow r, r2 => r2 = r
  | .highlightRow r, r2 => r2 = r
  | .drawMarkersCall _ s e, r2 => s ≤ r2 ∧ r2 < e
  | .drawSeparatorsAndLabelsCall s e, r2 => s ≤ r2 ∧ r2 < e

/-- Map lookup coerced to the ℤ row numbers drawCanvas works with. -/
def lookupRow (m : RowIndexMap) (markerIndex : ℕ) : Option ℤ :=
  (mapGet m markerIndex).map (fun r => (r : ℤ))

/-- Row resolution from drawCanvas: the hovered marker's row via the row
index, falling back to the hovered label row in active-tab mode when the
marker row is unknown. -/
def resolveRow (p : Props) (m : RowIndexMap) (marker : Option ℕ)
    (labelRow : Option ℤ) : Option ℤ :=
  let r := marker.bind (lookupRow m)
  if p.isActiveTab ∧ r = none ∧ labelRow ≠ none then labelRow else r

/-- The hover information handed to drawCanvas by the shared canvas. -/
structure ChartCanvasHoverInfo where
  hoveredItem : Option HoveredMarkerChartItems
  prevHoveredItem : Option HoveredMarkerChartItems
  isHoveredOnlyDifferent : Bool

/-- The new (currently hovered) row resolved by drawCanvas. -/
def newRowOf (p : Props) (hi : ChartCanvasHoverInfo) : Option ℤ :=
  resolveRow p (buildRowIndex p.markerTimingAndBuckets)
    (hi.hoveredItem.bind (fun h => h.markerIndex))
    (hi.hoveredItem.bind (fun h => h.rowIndexOfLabel))

/-- The old (previously hovered) row resolved by drawCanvas. -/
def oldRowOf (p : Props) (hi : ChartCanvasHoverInfo) : Option ℤ :=
  resolveRow p (buildRowIndex p.markerTimingAndBuckets)
    (hi.prevHoveredItem.bind (fun h => h.markerIndex))
    (hi.prevHoveredItem.bind (fun h => h.rowIndexOfLabel))

/-- The right-clicked row resolved by drawCanvas. -/
def rightClickedRowOf (p : Props) : Option ℤ :=
  p.rightClickedMarkerIndex.bind (lookupRow (buildRowIndex p.markerTimingAndBuckets))

/-- The message of the Error thrown when the canvas scale is not 1. -/
def scaleAssumptionMsg : String := "canvas user space units should be equal to CSS pixels"

/-- drawCanvas from the source, at the granularity of the row-scoped
operations it issues.  When only the hover state changed, only the new
and old hovered rows are repainted; otherwise the whole surface is
cleared and redrawn for the visible row range. -/
def drawCanvas (p : Props) (cssToUserScale : ℚ) (hi : ChartCanvasHoverInfo) :
    Except JsError (List CanvasOp) :=
  if cssToUserScale ≠ 1 then .error (.error scaleAssumptionMsg)
  else
    let hoveredMarker := hi.hoveredItem.bind (fun h => h.markerIndex)
    let hoveredLabel := hi.hoveredItem.bind (fun h => h.rowIndexOfLabel)
    let startRow : ℤ := Int.floor (p.viewport.viewportTop / p.rowHeight)
    let endRow : ℤ := min (Int.ceil (p.viewport.viewportBottom / p.rowHeight))
      (p.markerTimingAndBuckets.length : ℤ)
    let rightClickedRow := rightClickedRowOf p
    let newRow := newRowOf p hi
    if hi.isHoveredOnlyDifferent then
      let oldRow := oldRowOf p hi
      let newOps :=
        match newRow with
        | some nr =>
          [CanvasOp.clearRow nr, CanvasOp.highlightRow nr,
            CanvasOp.drawMarkersCall hoveredMarker nr (nr + 1)]
            ++ (if hoveredLabel = none then
                  [CanvasOp.drawSeparatorsAndLabelsCall nr (nr + 1)]
                else [])
        | none => []
      let oldOps :=
        match oldRow with
        | some orow =>
          if newRow ≠ some orow then
            (if rightClickedRow ≠ some orow then [CanvasOp.clearRow orow] else [])
              ++ [CanvasOp.drawMarkersCall hoveredMarker orow (orow + 1),
                CanvasOp.drawSeparatorsAndLabelsCall orow (orow + 1)]
          else []
        | none => []
      .ok (newOps ++ oldOps)
    else
      .ok ([CanvasOp.fullClear p.viewport.containerWidth p.viewport.containerHeight]
        ++ (match rightClickedRow with
            | some rr => [CanvasOp.highlightRow rr]
            | none =>
              match newRow with
              | some nr => [CanvasOp.highlightRow nr]
              | none => [])
        ++ [CanvasOp.drawMarkersCall hoveredMarker startRow endRow,
          CanvasOp.drawSeparatorsAndLabelsCall startRow endRow])

/-! Concrete fixtures used by the witnesses and counterexamples. -/

/-- A row category name used by the fixtures. -/
def rowNameA : String := "DOMEvent"

/-- A second row category name used by the fixtures. -/
def rowNameB : String := "GC"

/-- A bucket name used by the fixtures. -/
def bucketNameA : String := "Other"

/-- A two-marker timing row: intervals [0, 10] and [20, 30]. -/
def mtTwo : MarkerTiming := ⟨[0, 20], [10, 30], [noText, noText], [100, 200], rowNameA⟩

/-- A one-marker timing row: the interval [0, 10] with identifier 0. -/
def mtOne : MarkerTiming := ⟨[0], [10], [noText], [0], rowNameA⟩

/-- Props with a degenerate (zero-width) viewport over one timing row,
in the default (full) view. -/
def propsDegen : Props :=
  { rangeStart := 0, rangeEnd := 10,
    markerTimingAndBuckets := [.timing mtOne],
    rowHeight := 16, marginLeft := 0, marginRight := 0,
    selectedMarkerIndex := none, rightClickedMarkerIndex := none,
    isActiveTab := false,
    viewport := ⟨1 / 2, 1 / 2, 0, 16, 20, 16⟩, dpr := 1 }

/-- Props in active-tab mode with a timing row at row 0. -/
def propsActiveTab : Props :=
  { rangeStart := 0, rangeEnd := 10,
    markerTimingAndBuckets := [.timing mtOne],
    rowHeight := 16, marginLeft := 0, marginRight := 0,
    selectedMarkerIndex := none, rightClickedMarkerIndex := none,
    isActiveTab := true,
    viewport := ⟨0, 1, 0, 16, 20, 16⟩, dpr := 1 }

/-- Non-degenerate props used by the coordinate-mapping witness. -/
def propsMain : Props :=
  { rangeStart := 0, rangeEnd := 10,
    markerTimingAndBuckets := [.timing mtOne],
    rowHeight := 16, marginLeft := 10, marginRight := 10,
    selectedMarkerIndex := none, rightClickedMarkerIndex := none,
    isActiveTab := false,
    viewport := ⟨0, 1, 0, 16, 120, 16⟩, dpr := 2 }

/-- C1: with a sorted non-empty timing row and the bisection insertion
point strictly between 0 and the row length, hitTest compares the signed
gaps distanceToPrev = xInTime - end[prev] and distanceToNext =
start[next] - xInTime, selects the previous marker exactly when
distanceToPrev < distanceToNext (so an exact tie selects the later
marker), and returns the selected candidate's identifier only when it
passes the dot-radius acceptance test. -/
theorem hitTest_two_candidate_tiebreak (mt : MarkerTiming) (xInTime r : ℚ)
    (hsorted : mt.start.Sorted (· ≤ ·))
    (h0 : 0 < bisectionRight mt.start xInTime)
    (hlen : bisectionRight mt.start xInTime < mt.length) :
    (hitTestMarkerIndex mt xInTime r =
      if xInTime - mt.stop.getD (bisectionRight mt.start xInTime - 1) 0 <
          mt.start.getD (bisectionRight mt.start xInTime) 0 - xInTime then
        (if isMarkerTimingInDotRadius mt xInTime r (bisectionRight mt.start xInTime - 1) then
          some (mt.index.getD (bisectionRight mt.start xInTime - 1) 0)
        else none)
      else
        (if isMarkerTimingInDotRadius mt xInTime r (bisectionRight mt.start xInTime) then
          some (mt.index.getD (bisectionRight mt.start xInTime) 0)
        else none)) ∧
    (xInTime - mt.stop.getD (bisectionRight mt.start xInTime - 1) 0 =
        mt.start.getD (bisectionRight mt.start xInTime) 0 - xInTime →
      hitTestMarkerIndex mt xInTime r =
        (if isMarkerTimingInDotRadius mt xInTime r (bisectionRight mt.start xInTime) then
          some (mt.index.getD (bisectionRight mt.start xInTime) 0)
        else none)) := by
  constructor
  · simp only [hitTestMarkerIndex]
    rw [if_pos ⟨h0, hlen⟩]
    split <;> rfl
  · intro htie
    simp only [hitTestMarkerIndex]
    rw [if_pos ⟨h0, hlen⟩]
    have hnlt : ¬ (xInTime - mt.stop.getD (bisectionRight mt.start xInTime - 1) 0 <
        mt.start.getD (bisectionRight mt.start xInTime) 0 - xInTime) := by
      rw [htie]; exact lt_irrefl _
    simp only [if_neg hnlt]

theorem hitTest_two_candidate_tiebreak_witness :
    List.Sorted (· ≤ ·) mtTwo.start ∧
    0 < bisectionRight mtTwo.start 12 ∧ bisectionRight mtTwo.start 12 < mtTwo.length ∧
    ((hitTestMarkerIndex mtTwo 12 5 =
      if 12 - mtTwo.stop.getD (bisectionRight mtTwo.start 12 - 1) 0 <
          mtTwo.start.getD (bisectionRight mtTwo.start 12) 0 - 12 then
        (if isMarkerTimingInDotRadius mtTwo 12 5 (bisectionRight mtTwo.start 12 - 1) then
          some (mtTwo.index.getD (bisectionRight mtTwo.start 12 - 1) 0)
        else none)
      else
        (if isMarkerTimingInDotRadius mtTwo 12 5 (bisectionRight mtTwo.start 12) then
          some (mtTwo.index.getD (bisectionRight mtTwo.start 12) 0)
        else none)) ∧
    (12 - mtTwo.stop.getD (bisectionRight mtTwo.start 12 - 1) 0 =
        mtTwo.start.getD (bisectionRight mtTwo.start 12) 0 - 12 →
      hitTestMarkerIndex mtTwo 12 5 =
        (if isMarkerTimingInDotRadius mtTwo 12 5 (bisectionRight mtTwo.start 12) then
          some (mtTwo.index.getD (bisectionRight mtTwo.start 12) 0)
        else none))) :=
  ⟨by decide, by decide, by decide,
    hitTest_two_candidate_tiebreak mtTwo 12 5 (by decide) (by decide) (by decide)⟩

/-- C10: in active-tab mode, a pointer position mapping to row 0 with a
non-empty timing row makes hitTest read the name of the nonexistent
previous row (markerTimingAndBuckets[-1] is undefined), so it throws a
TypeError instead of returning a hover state or null. -/
theorem hitTest_active_tab_first_row_type_error (p : Props)
    (textMeasurement : Option TextMeasurement) (x y : ℚ) (mt : MarkerTiming)
    (hat : p.isActiveTab = true)
    (hx : ¬ x < p.marginLeft - dotRadius p)
    (hrow : Int.floor ((y + p.viewport.viewportTop) / p.rowHeight) = 0)
    (hget : getRow p.markerTimingAndBuckets 0 = some (.timing mt))
    (hne : mt.length ≠ 0) :
    hitTest p textMeasurement x y = .error (.typeError undefinedNameMsg) := by
  have hgetm1 : getRow p.markerTimingAndBuckets (0 - 1) = none := by
    unfold getRow; norm_num
  simp only [hitTest, if_neg hx, hrow, hget, if_neg hne, hat, if_true, hgetm1]

theorem hitTest_active_tab_first_row_type_error_witness :
    propsActiveTab.isActiveTab = true ∧
    ¬ (5 : ℚ) < propsActiveTab.marginLeft - dotRadius propsActiveTab ∧
    Int.floor (((0 : ℚ) + propsActiveTab.viewport.viewportTop) / propsActiveTab.rowHeight) = 0 ∧
    getRow propsActiveTab.markerTimingAndBuckets 0 = some (.timing mtOne) ∧
    mtOne.length ≠ 0 ∧
    hitTest propsActiveTab none 5 0 = .error (.typeError undefinedNameMsg) :=
  ⟨rfl, by norm_num [propsActiveTab, dotRadius, MARKER_DOT_RADIUS],
    by norm_num [propsActiveTab], by decide, by decide,
    hitTest_active_tab_first_row_type_error propsActiveTab none 5 0 mtOne rfl
      (by norm_num [propsActiveTab, dotRadius, MARKER_DOT_RADIUS])
      (by norm_num [propsActiveTab]) (by decide) (by decide)⟩

/-- C2 (amended): the code contains no DegenerateGeometry guard.  In the
default (full) view, hitTest returns normally for every input — including
degenerate ones with a zero-width time range or non-positive viewport
width — instead of failing with an error. -/
theorem hitTest_degenerate_no_error (p : Props)
    (textMeasurement : Option TextMeasurement) (x y : ℚ)
    (hfull : p.isActiveTab = false)
    (hdeg : p.rangeEnd = p.rangeStart ∨ viewportLength p ≤ 0) :
    ∃ res, hitTest p textMeasurement x y = .ok res := by
  unfold hitTest
  simp only [hfull, Bool.false_eq_true, if_false]
  repeat' split
  all_goals exact ⟨_, rfl⟩

theorem hitTest_degenerate_no_error_witness :
    propsDegen.isActiveTab = false ∧
    (propsDegen.rangeEnd = propsDegen.rangeStart ∨ viewportLength propsDegen ≤ 0) ∧
    ∃ res, hitTest propsDegen none 10 0 = .ok res :=
  ⟨rfl, Or.inr (by norm_num [viewportLength, propsDegen]),
    hitTest_degenerate_no_error propsDegen none 10 0 rfl
      (Or.inr (by norm_num [viewportLength, propsDegen]))⟩

/-- C2 (counterexample): on a degenerate input (viewport.right =
viewport.left) hitTest does not fail with a DegenerateGeometry error and
does not abort: it completes normally and even reports a marker hit. -/
theorem hitTest_degenerate_cex :
    viewportLength propsDegen = 0 ∧
    hitTest propsDegen none 10 0 = .ok (some ⟨some 0, none⟩) := by
  constructor
  · norm_num [viewportLength, propsDegen]
  · norm_num [hitTest, xInTimeAt, xInUnitIntervalAt, viewportLength, rangeLength,
      markerContainerWidth, dotRadius, dotRadiusInTime, MARKER_DOT_RADIUS, propsDegen,
      mtOne, getRow, MarkerTiming.length, hitTestMarkerIndex, bisectionRight,
      isMarkerTimingInDotRadius, List.takeWhile]
    exact fun h => nomatch h

/-- C3: the pixel x and the pixel width of a drawn marker are computed
by the spec's unit-interval-to-pixel formula (the width being the
difference of the mapped end and start positions) and each is then
rounded to the nearest device-pixel-aligned value, while hit testing
applies the exact inverse mapping from pixel to unit interval (and on
to time) with no rounding. -/
theorem coordinate_mapping_inverse (p : Props) (u u2 x : ℚ) (hoveredItem : Option ℕ)
    (rowIndex : ℤ) (m : TimedMarker)
    (hv : viewportLength p ≠ 0) (hm : markerContainerWidth p ≠ 0) :
    markerPixelX p u =
      unitIntervalToPixel u p.viewport.viewportLeft p.viewport.viewportRight
        p.viewport.containerWidth p.marginLeft p.marginRight ∧
    markerPixelW p u u2 =
      unitIntervalToPixel u2 p.viewport.viewportLeft p.viewport.viewportRight
          p.viewport.containerWidth p.marginLeft p.marginRight -
        unitIntervalToPixel u p.viewport.viewportLeft p.viewport.viewportRight
          p.viewport.containerWidth p.marginLeft p.marginRight ∧
    (computeGeometry p hoveredItem rowIndex m).x =
      roundToDevicePixels p (markerPixelX p ((m.start - p.rangeStart) / rangeLength p)) ∧
    (computeGeometry p hoveredItem rowIndex m).w =
      roundToDevicePixels p
        (markerPixelW p ((m.start - p.rangeStart) / rangeLength p)
          ((m.stop - p.rangeStart) / rangeLength p)) ∧
    roundToDevicePixels p (markerPixelX p u) =
      (jsRound (markerPixelX p u * p.dpr) : ℚ) / p.dpr ∧
    roundToDevicePixels p (markerPixelW p u u2) =
      (jsRound (markerPixelW p u u2 * p.dpr) : ℚ) / p.dpr ∧
    unitIntervalToPixel (xInUnitIntervalAt p x) p.viewport.viewportLeft
      p.viewport.viewportRight p.viewport.containerWidth p.marginLeft p.marginRight = x ∧
    xInTimeAt p x = p.rangeStart + xInUnitIntervalAt p x * rangeLength p := by
  refine ⟨?_, ?_, rfl, rfl, rfl, rfl, ?_, rfl⟩
  · unfold markerPixelX unitIntervalToPixel markerContainerWidth viewportLength
    ring
  · unfold markerPixelW unitIntervalToPixel markerContainerWidth viewportLength
    ring
  · unfold viewportLength at hv
    unfold markerContainerWidth at hm
    unfold unitIntervalToPixel xInUnitIntervalAt viewportLength markerContainerWidth
    field_simp
    ring

theorem coordinate_mapping_inverse_witness :
    viewportLength propsMain ≠ 0 ∧ markerContainerWidth propsMain ≠ 0 ∧
    (markerPixelX propsMain (1 / 2) =
      unitIntervalToPixel (1 / 2) propsMain.viewport.viewportLeft
        propsMain.viewport.viewportRight propsMain.viewport.containerWidth
        propsMain.marginLeft propsMain.marginRight ∧
    markerPixelW propsMain (1 / 2) (7 / 10) =
      unitIntervalToPixel (7 / 10) propsMain.viewport.viewportLeft
          propsMain.viewport.viewportRight propsMain.viewport.containerWidth
          propsMain.marginLeft propsMain.marginRight -
        unitIntervalToPixel (1 / 2) propsMain.viewport.viewportLeft
          propsMain.viewport.viewportRight propsMain.viewport.containerWidth
          propsMain.marginLeft propsMain.marginRight ∧
    (computeGeometry propsMain none 0 ⟨3, 7, noText, 0⟩).x =
      roundToDevicePixels propsMain
        (markerPixelX propsMain ((3 - propsMain.rangeStart) / rangeLength propsMain)) ∧
    (computeGeometry propsMain none 0 ⟨3, 7, noText, 0⟩).w =
      roundToDevicePixels propsMain
        (markerPixelW propsMain ((3 - propsMain.rangeStart) / rangeLength propsMain)
          ((7 - propsMain.rangeStart) / rangeLength propsMain)) ∧
    roundToDevicePixels propsMain (markerPixelX propsMain (1 / 2)) =
      (jsRound (markerPixelX propsMain (1 / 2) * propsMain.dpr) : ℚ) / propsMain.dpr ∧
    roundToDevicePixels propsMain (markerPixelW propsMain (1 / 2) (7 / 10)) =
      (jsRound (markerPixelW propsMain (1 / 2) (7 / 10) * propsMain.dpr) : ℚ) /
        propsMain.dpr ∧
    unitIntervalToPixel (xInUnitIntervalAt propsMain 60) propsMain.viewport.viewportLeft
      propsMain.viewport.viewportRight propsMain.viewport.containerWidth
      propsMain.marginLeft propsMain.marginRight = 60 ∧
    xInTimeAt propsMain 60 =
      propsMain.rangeStart + xInUnitIntervalAt propsMain 60 * rangeLength propsMain) :=
  ⟨by norm_num [viewportLength, propsMain], by norm_num [markerContainerWidth, propsMain],
    coordinate_mapping_inverse propsMain (1 / 2) (7 / 10) 60 none 0 ⟨3, 7, noText, 0⟩
      (by norm_num [viewportLength, propsMain])
      (by norm_num [markerContainerWidth, propsMain])⟩

/-- C5: an interval marker of rounded width w <= 2 is drawn as a filled
bar only (no border stroke, no text); with w > 2 it is drawn as a
bordered rectangle, and the text label is attempted only when the
available inner width exceeds the text system's minimum renderable
width.  In particular w = 2 gives a bare filled bar and w = 3 takes the
bordered-rectangle-with-text-fitting path. -/
theorem drawOneIntervalMarker_shape_policy (marginLeft : ℚ) (tm : TextMeasurement)
    (x y w h : ℚ) (text : String) (isHighlighted : Bool) :
    (w ≤ 2 → drawOneIntervalMarker marginLeft tm x y w h text isHighlighted =
      [DrawOp.fillRect x (y + 1) (max w 1) (h - 2)
        (if isHighlighted then BLUE_80 else MARKER_BORDER_COLOR)]) ∧
    (w > 2 → drawOneIntervalMarker marginLeft tm x y w h text isHighlighted =
      DrawOp.borderedRect (x + 1 / 2) (y + 3 / 2) (w - 1) (h - 3)
          (if isHighlighted then BLUE_60 else MARKER_FILL_COLOR)
          (if isHighlighted then BLUE_80 else MARKER_BORDER_COLOR)
        :: (if textAvailableWidth marginLeft x w > tm.minWidth then
              (if tm.getFittedText text (textAvailableWidth marginLeft x w) ≠ noText then
                [DrawOp.fillText (tm.getFittedText text (textAvailableWidth marginLeft x w))
                  (textStartX marginLeft x) (y + TEXT_OFFSET_TOP)
                  (if isHighlighted then "white" else "black")]
              else [])
            else [])) ∧
    (w > 2 → ¬ textAvailableWidth marginLeft x w > tm.minWidth →
      drawOneIntervalMarker marginLeft tm x y w h text isHighlighted =
        [DrawOp.borderedRect (x + 1 / 2) (y + 3 / 2) (w - 1) (h - 3)
          (if isHighlighted then BLUE_60 else MARKER_FILL_COLOR)
          (if isHighlighted then BLUE_80 else MARKER_BORDER_COLOR)]) := by
  refine ⟨?_, ?_, ?_⟩
  · intro hw
    simp only [drawOneIntervalMarker, if_pos hw]
  · intro hw
    have h1 : y + 1 + 1 / 2 = y + 3 / 2 := by ring
    have h2 : h - 2 - 1 = h - 3 := by ring
    simp only [drawOneIntervalMarker, if_neg (not_le.mpr hw), h1, h2]
    rfl
  · intro hw hnarrow
    have h1 : y + 1 + 1 / 2 = y + 3 / 2 := by ring
    have h2 : h - 2 - 1 = h - 3 := by ring
    simp only [drawOneIntervalMarker, if_neg (not_le.mpr hw), if_neg hnarrow, h1, h2]

/-- A trivial concrete text-measurement collaborator for witnesses. -/
def tmZero : TextMeasurement := ⟨0, fun _ _ => noText, fun _ => 0⟩

theorem drawOneIntervalMarker_shape_policy_witness :
    ((2 : ℚ) ≤ 2 ∧
      drawOneIntervalMarker 0 tmZero 10 0 2 16 noText false =
        [DrawOp.fillRect 10 (0 + 1) (max 2 1) (16 - 2) MARKER_BORDER_COLOR]) ∧
    ((3 : ℚ) > 2 ∧
      drawOneIntervalMarker 0 tmZero 10 0 3 16 noText false =
        DrawOp.borderedRect (10 + 1 / 2) (0 + 3 / 2) (3 - 1) (16 - 3)
            MARKER_FILL_COLOR MARKER_BORDER_COLOR
          :: (if textAvailableWidth 0 10 3 > tmZero.minWidth then
                (if tmZero.getFittedText noText (textAvailableWidth 0 10 3) ≠ noText then
                  [DrawOp.fillText (tmZero.getFittedText noText (textAvailableWidth 0 10 3))
                    (textStartX 0 10) (0 + TEXT_OFFSET_TOP) "black"]
                else [])
              else [])) :=
  ⟨⟨by norm_num,
    by simpa using
      (drawOneIntervalMarker_shape_policy 0 tmZero 10 0 2 16 noText false).1 (by norm_num)⟩,
    ⟨by norm_num,
    by simpa using
      (drawOneIntervalMarker_shape_policy 0 tmZero 10 0 3 16 noText false).2.1 (by norm_num)⟩⟩

/-- C9 (amended): an instant marker is handed h = rowHeight - 1 by
drawMarkers and drawn as a diamond centered at x whose vertices span a
height of rowHeight - 4 (rowHeight - 3 only when the one-pixel stroke is
included) and whose half-width is (rowHeight - 1) / 4. -/
theorem instant_marker_diamond_geometry (p : Props) (hoveredItem : Option ℕ)
    (rowIndex : ℤ) (m : TimedMarker) (x y : ℚ) (isHighlighted : Bool)
    (hinstant : m.start = m.stop) :
    ((computeGeometry p hoveredItem rowIndex m).isInstantMarker = true ∧
      (computeGeometry p hoveredItem rowIndex m).h = p.rowHeight - 1) ∧
    drawOneInstantMarker x y (p.rowHeight - 1) isHighlighted =
      [DrawOp.diamond (x - (p.rowHeight - 1) / 4) (y + (p.rowHeight - 1) / 2)
        x (y + 3 / 2) (x + (p.rowHeight - 1) / 4) (y + (p.rowHeight - 1) / 2)
        x (y + (p.rowHeight - 1) - 3 / 2)
        (if isHighlighted then BLUE_60 else MARKER_FILL_COLOR)
        (if isHighlighted then BLUE_80 else MARKER_BORDER_COLOR)] ∧
    (y + (p.rowHeight - 1) - 3 / 2) - (y + 3 / 2) = p.rowHeight - 4 ∧
    x - (x - (p.rowHeight - 1) / 4) = (p.rowHeight - 1) / 4 ∧
    (x + (p.rowHeight - 1) / 4) - x = (p.rowHeight - 1) / 4 := by
  refine ⟨⟨?_, rfl⟩, rfl, by ring, by ring, by ring⟩
  simp [computeGeometry, hinstant]

theorem instant_marker_diamond_geometry_witness :
    (3 : ℚ) = 3 ∧
    (((computeGeometry propsMain none 0 ⟨3, 3, noText, 0⟩).isInstantMarker = true ∧
      (computeGeometry propsMain none 0 ⟨3, 3, noText, 0⟩).h = propsMain.rowHeight - 1) ∧
    drawOneInstantMarker 10 0 (propsMain.rowHeight - 1) false =
      [DrawOp.diamond (10 - (propsMain.rowHeight - 1) / 4) (0 + (propsMain.rowHeight - 1) / 2)
        10 (0 + 3 / 2) (10 + (propsMain.rowHeight - 1) / 4) (0 + (propsMain.rowHeight - 1) / 2)
        10 (0 + (propsMain.rowHeight - 1) - 3 / 2)
        MARKER_FILL_COLOR MARKER_BORDER_COLOR] ∧
    (0 + (propsMain.rowHeight - 1) - 3 / 2) - (0 + 3 / 2) = propsMain.rowHeight - 4 ∧
    (10 : ℚ) - (10 - (propsMain.rowHeight - 1) / 4) = (propsMain.rowHeight - 1) / 4 ∧
    ((10 : ℚ) + (propsMain.rowHeight - 1) / 4) - 10 = (propsMain.rowHeight - 1) / 4) :=
  ⟨rfl, by
    simpa using
      instant_marker_diamond_geometry propsMain none 0 ⟨3, 3, noText, 0⟩ 10 0 false rfl⟩

/-- C9 (counterexample): at rowHeight = 16 the diamond actually drawn
for an instant marker has vertex half-width 15 / 4, not rowHeight / 4 =
4, and vertex-to-vertex height 12, not rowHeight - 3 = 13. -/
theorem instant_diamond_dimensions_cex :
    propsMain.rowHeight = 16 ∧
    (computeGeometry propsMain none 0 ⟨3, 3, noText, 0⟩).h = 15 ∧
    drawOneInstantMarker 10 0 15 false =
      [DrawOp.diamond (10 - 15 / 4) (15 / 2) 10 (3 / 2) (10 + 15 / 4) (15 / 2)
        10 (27 / 2) MARKER_FILL_COLOR MARKER_BORDER_COLOR] ∧
    ¬ (((10 : ℚ) + 15 / 4) - 10 = 16 / 4) ∧
    ¬ (((27 : ℚ) / 2) - 3 / 2 = 16 - 3) := by
  refine ⟨rfl, ?_, ?_, by norm_num, by norm_num⟩
  · norm_num [computeGeometry, propsMain]
  · norm_num [drawOneInstantMarker]

/-- On a strictly ascending list, the bisection insertion point of the
element at index i is i + 1. -/
lemma bisectionRight_at_index :
    ∀ l : List ℚ, l.Sorted (· < ·) → ∀ i, i < l.length →
      bisectionRight l (l.getD i 0) = i + 1 := by
  intro l
  induction l with
  | nil => intro _ i hi; simp at hi
  | cons a tl ih =>
    intro hs i hi
    have hca : ∀ b ∈ tl, a < b := (List.sorted_cons.mp hs).1
    have htl : tl.Sorted (· < ·) := (List.sorted_cons.mp hs).2
    cases i with
    | zero =>
      simp only [List.getD_cons_zero]
      unfold bisectionRight
      rw [List.takeWhile_cons, if_pos (by simp)]
      have hrest : tl.takeWhile (fun s => decide (s ≤ a)) = [] := by
        cases tl with
        | nil => rfl
        | cons b tl2 =>
          rw [List.takeWhile_cons,
            if_neg (by simpa using not_le.mpr (hca b (List.mem_cons_self b tl2)))]
      rw [hrest]
      rfl
    | succ j =>
      have hj : j < tl.length := by simpa using hi
      have hmem : tl.getD j 0 ∈ tl := by
        rw [List.getD_eq_getElem tl 0 hj]; exact List.getElem_mem hj
      have ha : a ≤ tl.getD j 0 := le_of_lt (hca _ hmem)
      simp only [List.getD_cons_succ]
      unfold bisectionRight
      rw [List.takeWhile_cons, if_pos (by simpa using ha)]
      simp only [List.length_cons]
      have hih := ih htl j hj
      unfold bisectionRight at hih
      omega

/-- C8 (amended): with start[] strictly ascending, hit-testing at a time
coordinate exactly equal to start[i] returns marker i: the bisection
insertion point is i + 1, the tie-break picks the previous candidate i,
and i passes the dot-radius acceptance test. -/
theorem hitTest_at_exact_start_strict (mt : MarkerTiming) (r : ℚ) (i : ℕ)
    (hs : mt.start.Sorted (· < ·))
    (hse : ∀ j, j < mt.length → mt.start.getD j 0 ≤ mt.stop.getD j 0)
    (hr : 0 < r) (hi : i < mt.length) :
    hitTestMarkerIndex mt (mt.start.getD i 0) r = some (mt.index.getD i 0) := by
  have hb : bisectionRight mt.start (mt.start.getD i 0) = i + 1 :=
    bisectionRight_at_index mt.start hs i hi
  have hprev : mt.start.getD i 0 ≤ mt.stop.getD i 0 := hse i hi
  have hacc : isMarkerTimingInDotRadius mt (mt.start.getD i 0) r i :=
    ⟨by linarith, by linarith⟩
  unfold hitTestMarkerIndex
  simp only [hb, Nat.add_sub_cancel]
  by_cases hlt : i + 1 < mt.length
  · rw [if_pos ⟨Nat.succ_pos i, hlt⟩]
    have hnext : mt.start.getD i 0 < mt.start.getD (i + 1) 0 := by
      have h1 : i < mt.start.length := hi
      have h2 : i + 1 < mt.start.length := hlt
      rw [List.getD_eq_getElem mt.start 0 h1, List.getD_eq_getElem mt.start 0 h2]
      exact List.pairwise_iff_get.mp hs ⟨i, h1⟩ ⟨i + 1, h2⟩ (by simp)
    have hdlt : mt.start.getD i 0 - mt.stop.getD i 0 <
        mt.start.getD (i + 1) 0 - mt.start.getD i 0 := by linarith
    rw [if_pos hdlt, if_pos hacc]
  · rw [if_neg (fun hand => hlt hand.2), if_neg (Nat.succ_ne_zero i), if_pos hacc]

theorem hitTest_at_exact_start_strict_witness :
    List.Sorted (· < ·) mtTwo.start ∧
    (∀ j, j < mtTwo.length → mtTwo.start.getD j 0 ≤ mtTwo.stop.getD j 0) ∧
    (0 : ℚ) < 5 ∧ 1 < mtTwo.length ∧
    hitTestMarkerIndex mtTwo (mtTwo.start.getD 1 0) 5 = some (mtTwo.index.getD 1 0) :=
  ⟨by decide, by intro j hj; have hj2 : j < 2 := hj; interval_cases j <;> decide,
    by norm_num, by decide,
    hitTest_at_exact_start_strict mtTwo 5 1 (by decide)
      (by intro j hj; have hj2 : j < 2 := hj; interval_cases j <;> decide)
      (by norm_num) (by decide)⟩

/-- A timing row with duplicate start times (sorted ascending, but not
strictly): two instant markers at time 10 with identifiers 0 and 1. -/
def mtDup : MarkerTiming := ⟨[10, 10], [10, 10], [noText, noText], [0, 1], rowNameA⟩

/-- C8 (counterexample): with start[] merely sorted ascending (here two
equal start times), hit-testing at a time exactly equal to start[0]
returns marker 1, not marker 0: the claim fails at index i = 0. -/
theorem hitTest_exact_start_duplicate_cex :
    List.Sorted (· ≤ ·) mtDup.start ∧
    mtDup.start.getD 0 0 = 10 ∧ mtDup.index.getD 0 0 = 0 ∧
    hitTestMarkerIndex mtDup (mtDup.start.getD 0 0) 1 = some 1 := by
  refine ⟨by decide, rfl, rfl, ?_⟩
  norm_num [hitTestMarkerIndex, bisectionRight, isMarkerTimingInDotRadius, mtDup,
    MarkerTiming.length, List.takeWhile]

/-- Modelled from the spec: the drop policy, written from the spec's
wording for the refinement comparison — a non-highlighted marker is
skipped exactly when its rounded width is at most 1 pixel and its
rounded x equals the x of the immediately preceding drawn
non-highlighted marker of the row; highlighted markers are never drawn
here (second pass) and never update the last drawn x. -/
def specSelect : Option ℚ → List MarkerGeometry → List MarkerGeometry
  | _, [] => []
  | lastDrawnX, g :: rest =>
    if g.isHighlighted then specSelect lastDrawnX rest
    else if g.w ≤ 1 ∧ lastDrawnX = some g.x then specSelect lastDrawnX rest
    else g :: specSelect (some g.x) rest

/-- C4: over in-window markers, the drawMarkers row loop draws exactly
the non-highlighted markers selected by the spec's drop policy (skipped
iff rounded width <= 1 and same rounded x as the previously drawn
non-highlighted marker), and collects exactly the highlighted markers
for the second pass. -/
theorem drawMarkersRow_drop_policy (p : Props) (tm : TextMeasurement)
    (hoveredItem : Option ℕ) (rowIndex : ℤ) (ms : List TimedMarker)
    (prevX : Option ℚ)
    (hb : ∀ m ∈ ms, inViewBounds p m) :
    drawMarkersRow p tm hoveredItem rowIndex ms prevX =
      ((specSelect prevX (ms.map (computeGeometry p hoveredItem rowIndex))).flatMap
          (fun g => drawOneMarker p.marginLeft tm g.x g.y g.w g.h g.isInstantMarker g.text false),
        (ms.map (computeGeometry p hoveredItem rowIndex)).filter
          (fun g => g.isHighlighted)) := by
  induction ms generalizing prevX with
  | nil => simp [drawMarkersRow, specSelect]
  | cons m rest ih =>
    have hbm : inViewBounds p m := hb m (List.mem_cons_self m rest)
    have hbr : ∀ m2 ∈ rest, inViewBounds p m2 :=
      fun m2 h2 => hb m2 (List.mem_cons_of_mem m h2)
    rw [drawMarkersRow, if_pos hbm]
    simp only [List.map_cons, List.filter_cons]
    by_cases hhl : (computeGeometry p hoveredItem rowIndex m).isHighlighted
    · rw [if_pos hhl, ih _ hbr]
      simp [specSelect, hhl]
    · rw [if_neg hhl]
      by_cases hc : (computeGeometry p hoveredItem rowIndex m).w > 1 ∨
          prevX ≠ some (computeGeometry p hoveredItem rowIndex m).x
      · rw [if_pos hc, ih _ hbr]
        have hns : ¬ ((computeGeometry p hoveredItem rowIndex m).w ≤ 1 ∧
            prevX = some (computeGeometry p hoveredItem rowIndex m).x) := by
          rcases hc with hc1 | hc2
          · exact fun hand => absurd hand.1 (not_le.mpr hc1)
          · exact fun hand => absurd hand.2 hc2
        simp [specSelect, hhl, hns]
      · rw [if_neg hc, ih _ hbr]
        push_neg at hc
        have hsk : (computeGeometry p hoveredItem rowIndex m).w ≤ 1 ∧
            prevX = some (computeGeometry p hoveredItem rowIndex m).x :=
          ⟨hc.1, hc.2⟩
        simp [specSelect, hhl, hsk]

/-- Three instant dot markers in one row: the first two land on the same
rounded pixel x, the third on a different x.  With rangeStart 0,
rangeEnd 10, a full viewport of width 100 and dpr 1, times 1 and 1.05
both round to pixel 10 while time 5 rounds to pixel 50. -/
def mtDots : MarkerTiming :=
  ⟨[1, 26 / 25, 5], [1, 26 / 25, 5], [noText, noText, noText], [0, 1, 2], rowNameA⟩

/-- Props with a full unit viewport, no margins, container width 100. -/
def propsDots : Props :=
  { rangeStart := 0, rangeEnd := 10,
    markerTimingAndBuckets := [.timing mtDots],
    rowHeight := 16, marginLeft := 0, marginRight := 0,
    selectedMarkerIndex := none, rightClickedMarkerIndex := none,
    isActiveTab := false,
    viewport := ⟨0, 1, 0, 16, 100, 16⟩, dpr := 1 }

theorem drawMarkersRow_drop_policy_witness :
    (∀ m ∈ mtDots.markers, inViewBounds propsDots m) ∧
    ((mtDots.markers.map (computeGeometry propsDots none 0)).map (fun g => g.x) =
      [10, 10, 50] ∧
    (specSelect none (mtDots.markers.map (computeGeometry propsDots none 0))).map
        (fun g => g.x) = [10, 50]) ∧
    drawMarkersRow propsDots tmZero none 0 mtDots.markers none =
      ((specSelect none (mtDots.markers.map (computeGeometry propsDots none 0))).flatMap
          (fun g =>
            drawOneMarker propsDots.marginLeft tmZero g.x g.y g.w g.h g.isInstantMarker
              g.text false),
        (mtDots.markers.map (computeGeometry propsDots none 0)).filter
          (fun g => g.isHighlighted)) :=
  ⟨by
    intro m hm
    unfold inViewBounds rangeLength viewportLength markerContainerWidth
    fin_cases hm <;> norm_num [propsDots, mtDots],
    by
      have hmk : mtDots.markers =
          [⟨1, 1, noText, 0⟩, ⟨26 / 25, 26 / 25, noText, 1⟩, ⟨5, 5, noText, 2⟩] := rfl
      rw [hmk]
      norm_num [computeGeometry, roundToDevicePixels, jsRound, markerPixelX, markerPixelW,
        rangeLength, viewportLength, markerContainerWidth, isHighlightedMarker, propsDots,
        specSelect]
      simp,
    drawMarkersRow_drop_policy propsDots tmZero none 0 mtDots.markers none
      (by
        intro m hm
        unfold inViewBounds rangeLength viewportLength markerContainerWidth
        fin_cases hm <;> norm_num [propsDots, mtDots])⟩

/-- C6: when only the hover state changed, drawCanvas performs row-scoped
repaints only: no full-surface clear is issued, every issued op touches
only the resolved new or old hovered row, the new row (when resolved) is
cleared, highlighted and redrawn with its separator/label redrawn
exactly when no label is hovered, and the old row (when resolved and
different from the new row) has its markers and separator/label redrawn
and is cleared exactly when it is not the right-clicked row. -/
theorem drawCanvas_hover_only_row_scoped (p : Props) (hi : ChartCanvasHoverInfo)
    (hh : hi.isHoveredOnlyDifferent = true) :
    ∃ ops, drawCanvas p 1 hi = .ok ops ∧
      (∀ op ∈ ops, op.isFullClear = false) ∧
      (∀ op ∈ ops, ∀ r2 : ℤ, op.touchesRow r2 →
        newRowOf p hi = some r2 ∨ oldRowOf p hi = some r2) ∧
      (∀ nr, newRowOf p hi = some nr →
        CanvasOp.clearRow nr ∈ ops ∧ CanvasOp.highlightRow nr ∈ ops ∧
        CanvasOp.drawMarkersCall (hi.hoveredItem.bind (fun h => h.markerIndex))
          nr (nr + 1) ∈ ops ∧
        (CanvasOp.drawSeparatorsAndLabelsCall nr (nr + 1) ∈ ops ↔
          hi.hoveredItem.bind (fun h => h.rowIndexOfLabel) = none)) ∧
      (∀ orow, oldRowOf p hi = some orow → newRowOf p hi ≠ some orow →
        CanvasOp.drawMarkersCall (hi.hoveredItem.bind (fun h => h.markerIndex))
          orow (orow + 1) ∈ ops ∧
        CanvasOp.drawSeparatorsAndLabelsCall orow (orow + 1) ∈ ops ∧
        (CanvasOp.clearRow orow ∈ ops ↔ rightClickedRowOf p ≠ some orow)) := by
  have hdc : drawCanvas p 1 hi = .ok (
      (match newRowOf p hi with
        | some nr =>
          [CanvasOp.clearRow nr, CanvasOp.highlightRow nr,
            CanvasOp.drawMarkersCall (hi.hoveredItem.bind (fun h => h.markerIndex))
              nr (nr + 1)]
            ++ (if hi.hoveredItem.bind (fun h => h.rowIndexOfLabel) = none then
                  [CanvasOp.drawSeparatorsAndLabelsCall nr (nr + 1)]
                else [])
        | none => []) ++
      (match oldRowOf p hi with
        | some orow =>
          if newRowOf p hi ≠ some orow then
            (if rightClickedRowOf p ≠ some orow then [CanvasOp.clearRow orow] else [])
              ++ [CanvasOp.drawMarkersCall (hi.hoveredItem.bind (fun h => h.markerIndex))
                  orow (orow + 1),
                CanvasOp.drawSeparatorsAndLabelsCall orow (orow + 1)]
          else []
        | none => [])) := by
    unfold drawCanvas
    rw [if_neg (by norm_num : ¬ (1 : ℚ) ≠ 1), if_pos hh]
  refine ⟨_, hdc, ?_, ?_, ?_, ?_⟩
  · intro op hop
    rcases hnew : newRowOf p hi with _ | nr <;>
      rcases hold : oldRowOf p hi with _ | orow <;>
      simp only [hnew, hold, List.nil_append, List.append_nil] at hop
    · exact absurd hop (List.not_mem_nil op)
    · split_ifs at hop <;> fin_cases hop <;> rfl
    · split_ifs at hop <;> fin_cases hop <;> rfl
    · split_ifs at hop <;> fin_cases hop <;> rfl
  · intro op hop r2 htouch
    rcases hnew : newRowOf p hi with _ | nr <;>
      rcases hold : oldRowOf p hi with _ | orow <;>
      simp only [hnew, hold, List.nil_append, List.append_nil] at hop ⊢
    · exact absurd hop (List.not_mem_nil op)
    · split_ifs at hop <;> fin_cases hop <;>
        simp only [CanvasOp.touchesRow] at htouch <;>
        exact Or.inr (by rw [show orow = r2 by omega])
    · split_ifs at hop <;> fin_cases hop <;>
        simp only [CanvasOp.touchesRow] at htouch <;>
        exact Or.inl (by rw [show nr = r2 by omega])
    · split_ifs at hop <;> fin_cases hop <;>
        simp only [CanvasOp.touchesRow] at htouch <;>
        first
          | exact Or.inl (by rw [show nr = r2 by omega])
          | exact Or.inr (by rw [show orow = r2 by omega])
  · intro nr hnr
    simp only [hnr]
    rcases hold : oldRowOf p hi with _ | orow <;>
      by_cases hl : hi.hoveredItem.bind (fun h => h.rowIndexOfLabel) = none
    · simp [hl]
    · simp [hl]
    · by_cases hne : (some nr : Option ℤ) = some orow
      · simp_all
      · by_cases hrc : rightClickedRowOf p = some orow <;>
          simp_all [Option.some.injEq] <;> omega
    · by_cases hne : (some nr : Option ℤ) = some orow
      · simp_all
      · by_cases hrc : rightClickedRowOf p = some orow <;>
          simp_all [Option.some.injEq] <;> omega
  · intro orow horow hneq
    simp only [horow]
    rcases hnew : newRowOf p hi with _ | nr <;> simp only [hnew] at hneq ⊢
    · by_cases hrc : rightClickedRowOf p = some orow <;> simp_all
    · have hnr : nr ≠ orow := fun h => hneq (by rw [h])
      by_cases hl : hi.hoveredItem.bind (fun h => h.rowIndexOfLabel) = none <;>
        by_cases hrc : rightClickedRowOf p = some orow <;>
        simp_all [Option.some.injEq] <;> omega

/-- A one-marker timing row whose marker identifier is 5. -/
def mtRowA : MarkerTiming := ⟨[0], [10], [noText], [5], rowNameA⟩

/-- A one-marker timing row whose marker identifier is 7. -/
def mtRowB : MarkerTiming := ⟨[0], [10], [noText], [7], rowNameB⟩

/-- Props with two timing rows holding markers 5 (row 0) and 7 (row 1). -/
def propsTwoRows : Props :=
  { rangeStart := 0, rangeEnd := 10,
    markerTimingAndBuckets := [.timing mtRowA, .timing mtRowB],
    rowHeight := 16, marginLeft := 0, marginRight := 0,
    selectedMarkerIndex := none, rightClickedMarkerIndex := none,
    isActiveTab := false,
    viewport := ⟨0, 1, 0, 32, 100, 32⟩, dpr := 1 }

/-- The spec's example hover transition: marker 5 hovered before, marker
7 hovered now, only the hover state changed. -/
def hoverInfoSwitch : ChartCanvasHoverInfo :=
  ⟨some ⟨some 7, none⟩, some ⟨some 5, none⟩, true⟩

theorem drawCanvas_hover_only_row_scoped_witness :
    hoverInfoSwitch.isHoveredOnlyDifferent = true ∧
    (∃ ops, drawCanvas propsTwoRows 1 hoverInfoSwitch = .ok ops ∧
      (∀ op ∈ ops, op.isFullClear = false) ∧
      (∀ op ∈ ops, ∀ r2 : ℤ, op.touchesRow r2 →
        newRowOf propsTwoRows hoverInfoSwitch = some r2 ∨
          oldRowOf propsTwoRows hoverInfoSwitch = some r2) ∧
      (∀ nr, newRowOf propsTwoRows hoverInfoSwitch = some nr →
        CanvasOp.clearRow nr ∈ ops ∧ CanvasOp.highlightRow nr ∈ ops ∧
        CanvasOp.drawMarkersCall
          (hoverInfoSwitch.hoveredItem.bind (fun h => h.markerIndex)) nr (nr + 1) ∈ ops ∧
        (CanvasOp.drawSeparatorsAndLabelsCall nr (nr + 1) ∈ ops ↔
          hoverInfoSwitch.hoveredItem.bind (fun h => h.rowIndexOfLabel) = none)) ∧
      (∀ orow, oldRowOf propsTwoRows hoverInfoSwitch = some orow →
        newRowOf propsTwoRows hoverInfoSwitch ≠ some orow →
        CanvasOp.drawMarkersCall
          (hoverInfoSwitch.hoveredItem.bind (fun h => h.markerIndex)) orow (orow + 1) ∈ ops ∧
        CanvasOp.drawSeparatorsAndLabelsCall orow (orow + 1) ∈ ops ∧
        (CanvasOp.clearRow orow ∈ ops ↔ rightClickedRowOf propsTwoRows ≠ some orow))) :=
  ⟨rfl, drawCanvas_hover_only_row_scoped propsTwoRows hoverInfoSwitch rfl⟩

/-- mapGet after mapSet of the same key returns the new value. -/
lemma mapGet_mapSet_self (m : RowIndexMap) (k v : ℕ) :
    mapGet (mapSet m k v) k = some v := by
  simp [mapGet, mapSet, List.find?]

/-- mapGet after mapSet of a different key is unchanged. -/
lemma mapGet_mapSet_other (m : RowIndexMap) (k v k2 : ℕ) (h : k2 ≠ k) :
    mapGet (mapSet m k v) k2 = mapGet m k2 := by
  simp [mapGet, mapSet, List.find?, h, Ne.symm h]

/-- Folding mapSet over a list of keys: a key not in the list is
unchanged. -/
lemma mapGet_foldl_not_mem (ids : List ℕ) (m : RowIndexMap) (r k : ℕ) (h : k ∉ ids) :
    mapGet (ids.foldl (fun acc i => mapSet acc i r) m) k = mapGet m k := by
  induction ids generalizing m with
  | nil => rfl
  | cons i tl ih =>
    rw [List.foldl_cons]
    have hki : k ≠ i := fun he => h (he ▸ List.mem_cons_self i tl)
    rw [ih (mapSet m i r) (fun ht => h (List.mem_cons_of_mem i ht))]
    exact mapGet_mapSet_other m i r k hki

/-- Folding mapSet over a list of keys: a key in the list maps to the
common value. -/
lemma mapGet_foldl_mem (ids : List ℕ) (m : RowIndexMap) (r k : ℕ) (h : k ∈ ids) :
    mapGet (ids.foldl (fun acc i => mapSet acc i r) m) k = some r := by
  induction ids generalizing m with
  | nil => simp at h
  | cons i tl ih =>
    rw [List.foldl_cons]
    by_cases hk : k ∈ tl
    · exact ih (mapSet m i r) hk
    · have hki : k = i := by
        rcases List.mem_cons.mp h with h1 | h2
        · exact h1
        · exact absurd h2 hk
      subst hki
      rw [mapGet_foldl_not_mem tl (mapSet m k r) r k hk]
      exact mapGet_mapSet_self m k r

/-- A key contained in no timing row is absent from the built index. -/
lemma buildRowIndexAux_not_mem (rows : List MarkerRow) (r0 : ℕ) (m : RowIndexMap)
    (k : ℕ) (h : ∀ j mt2, rows.get? j = some (.timing mt2) → k ∉ mt2.index) :
    mapGet (buildRowIndexAux rows r0 m) k = mapGet m k := by
  induction rows generalizing r0 m with
  | nil => rfl
  | cons row rest ih =>
    cases row with
    | bucket s =>
      rw [buildRowIndexAux]
      exact ih (r0 + 1) m (fun j mt2 hj => h (j + 1) mt2 hj)
    | timing mt2 =>
      rw [buildRowIndexAux]
      rw [ih (r0 + 1) _ (fun j mt3 hj => h (j + 1) mt3 hj)]
      exact mapGet_foldl_not_mem mt2.index m r0 k (h 0 mt2 rfl)

/-- A key contained in exactly one timing row maps to that row's number. -/
lemma buildRowIndexAux_mem (rows : List MarkerRow) (r0 : ℕ) (m : RowIndexMap)
    (j : ℕ) (mt : MarkerTiming) (k : ℕ)
    (hget : rows.get? j = some (.timing mt)) (hk : k ∈ mt.index)
    (huniq : ∀ j2 mt2, rows.get? j2 = some (.timing mt2) → k ∈ mt2.index → j2 = j) :
    mapGet (buildRowIndexAux rows r0 m) k = some (r0 + j) := by
  induction rows generalizing r0 m j with
  | nil => simp at hget
  | cons row rest ih =>
    cases j with
    | zero =>
      rw [List.get?_cons_zero] at hget
      injection hget with hrow
      subst hrow
      rw [buildRowIndexAux]
      rw [buildRowIndexAux_not_mem rest (r0 + 1) _ k
        (fun j2 mt2 hj2 hkin => by
          have := huniq (j2 + 1) mt2 (by simpa using hj2) hkin
          omega)]
      rw [mapGet_foldl_mem mt.index m r0 k hk]
      exact congrArg some (by omega)
    | succ j2 =>
      rw [List.get?_cons_succ] at hget
      have huniq2 : ∀ j3 mt3, rest.get? j3 = some (.timing mt3) → k ∈ mt3.index → j3 = j2 :=
        fun j3 mt3 hj3 hkin => by
          have := huniq (j3 + 1) mt3 (by simpa using hj3) hkin
          omega
      cases row with
      | bucket s =>
        rw [buildRowIndexAux]
        rw [ih (r0 + 1) m j2 hget huniq2]
        congr 1
        omega
      | timing mt4 =>
        rw [buildRowIndexAux]
        rw [ih (r0 + 1) _ j2 hget huniq2]
        congr 1
        omega

/-- C7: building the row index maps every marker identifier of a timing
row to that row's number (identifiers being unique across rows) while
bucket rows contribute no entries; and the memoized accessor returns the
identical cached result (same stamp, same map, unchanged cache) when
called again with the identical RowSequence, building a fresh map only
when the RowSequence identity has not been seen. -/
theorem rowIndex_build_and_memoization (rs : RowSequence) (st : MemoState)
    (r : ℕ) (mt : MarkerTiming) (markerIndex : ℕ)
    (hget : rs.rows.get? r = some (.timing mt))
    (hmem : markerIndex ∈ mt.index)
    (huniq : ∀ r2 mt2, rs.rows.get? r2 = some (.timing mt2) →
      markerIndex ∈ mt2.index → r2 = r) :
    mapGet (buildRowIndex rs.rows) markerIndex = some r ∧
    (∀ k, (∀ r2 mt2, rs.rows.get? r2 = some (.timing mt2) → k ∉ mt2.index) →
      mapGet (buildRowIndex rs.rows) k = none) ∧
    ((getMarkerIndexToTimingRow (getMarkerIndexToTimingRow st rs).2 rs).1 =
        (getMarkerIndexToTimingRow st rs).1 ∧
      (getMarkerIndexToTimingRow (getMarkerIndexToTimingRow st rs).2 rs).2 =
        (getMarkerIndexToTimingRow st rs).2) ∧
    (∀ st2 : MemoState,
      (st2.entries.find? (fun e => decide (e.1 = rs.ident))).isSome →
      (getMarkerIndexToTimingRow st2 rs).2 = st2) := by
  refine ⟨?_, ?_, ?_, ?_⟩
  · have := buildRowIndexAux_mem rs.rows 0 [] r mt markerIndex hget hmem huniq
    simpa using this
  · intro k hk
    exact buildRowIndexAux_not_mem rs.rows 0 [] k hk
  · unfold getMarkerIndexToTimingRow
    cases hfind : st.entries.find? (fun e => decide (e.1 = rs.ident)) with
    | some e => simp [hfind]
    | none => simp [hfind, List.find?_cons]
  · intro st2 hsome
    unfold getMarkerIndexToTimingRow
    cases hfind : st2.entries.find? (fun e => decide (e.1 = rs.ident)) with
    | some e => rfl
    | none => rw [hfind] at hsome; simp at hsome

/-- A RowSequence fixture: a bucket row followed by a timing row whose
single marker has identifier 5. -/
def rsFixture : RowSequence := ⟨0, [.bucket bucketNameA, .timing mtRowA]⟩

theorem rowIndex_build_and_memoization_witness :
    rsFixture.rows.get? 1 = some (.timing mtRowA) ∧
    5 ∈ mtRowA.index ∧
    (∀ r2 mt2, rsFixture.rows.get? r2 = some (.timing mt2) → 5 ∈ mt2.index → r2 = 1) ∧
    (mapGet (buildRowIndex rsFixture.rows) 5 = some 1 ∧
    (∀ k, (∀ r2 mt2, rsFixture.rows.get? r2 = some (.timing mt2) → k ∉ mt2.index) →
      mapGet (buildRowIndex rsFixture.rows) k = none) ∧
    ((getMarkerIndexToTimingRow (getMarkerIndexToTimingRow MemoState.empty rsFixture).2
          rsFixture).1 =
        (getMarkerIndexToTimingRow MemoState.empty rsFixture).1 ∧
      (getMarkerIndexToTimingRow (getMarkerIndexToTimingRow MemoState.empty rsFixture).2
          rsFixture).2 =
        (getMarkerIndexToTimingRow MemoState.empty rsFixture).2) ∧
    (∀ st2 : MemoState,
      (st2.entries.find? (fun e => decide (e.1 = rsFixture.ident))).isSome →
      (getMarkerIndexToTimingRow st2 rsFixture).2 = st2)) :=
  have huniq : ∀ r2 mt2, rsFixture.rows.get? r2 = some (.timing mt2) →
      5 ∈ mt2.index → r2 = 1 := by
    intro r2 mt2 hg hm
    match r2 with
    | 0 => simp [rsFixture] at hg
    | 1 => rfl
    | n + 2 => exact absurd hg (by simp [rsFixture])
  ⟨by decide, by decide, huniq,
    rowIndex_build_and_memoization rsFixture MemoState.empty 1 mtRowA 5
      (by decide) (by decide) huniq⟩

end MarkerChart
